import Mathlib

/-!
Shallow embedding of the open-jinro-backend game server core
(src/index.ts, src/types/role.ts, src/types/phase.ts, src/types/room.ts,
src/types/rule.ts, src/types/user.ts, src/stores/userStore.ts).

The stores are modelled as lists of records keyed by `id`, mirroring the
in-memory `Map`-backed stores: `getUser`/`getRoom` is `find?` by id, and
`setUser`/`setRoom` replaces the record with the same id or appends a new
one (JS `Map.set` keeps insertion order, so a store never holds two
records with the same id; the replace-first formulation below agrees with
`Map.set` on all such stores).

Each socket event handler is embedded as a pure function from the server
state to the new server state paired with the list of emitted messages.
The handlers follow the source line by line; the async store calls are
sequentialized in program order.
-/

namespace OpenJinro

/-- Role enum from src/types/role.ts. -/
inductive ROLE where
  | WereWolf
  | FortuneTeller
  | Medium
  | Hunter
  | Maniac
  | Villager
deriving DecidableEq, Repr

/-- The string value of each `ROLE` enum member (the TS enum is string-valued). -/
def roleToString : ROLE → String
  | .WereWolf => "WereWolf"
  | .FortuneTeller => "FortuneTeller"
  | .Medium => "Medium"
  | .Hunter => "Hunter"
  | .Maniac => "Maniac"
  | .Villager => "Villager"

/-- `getRoleByString` from src/types/role.ts; the `default: throw` branch is
modelled as `none`. -/
def getRoleByString (value : String) : Option ROLE :=
  if value = "WereWolf" then some ROLE.WereWolf
  else if value = "FortuneTeller" then some ROLE.FortuneTeller
  else if value = "Medium" then some ROLE.Medium
  else if value = "Hunter" then some ROLE.Hunter
  else if value = "Maniac" then some ROLE.Maniac
  else if value = "Villager" then some ROLE.Villager
  else none

/-- Phase enum from src/types/phase.ts. -/
inductive PHASE where
  | Start
  | Discussion
  | Voting
  | VotingResult
  | Night
deriving DecidableEq, Repr

/-- The string value of each `PHASE` enum member. -/
def phaseToString : PHASE → String
  | .Start => "Start"
  | .Discussion => "Discussion"
  | .Voting => "Voting"
  | .VotingResult => "VotingResult"
  | .Night => "Night"

/-- `getPhaseByString` from src/types/phase.ts; the `default: throw` branch is
modelled as `none`. -/
def getPhaseByString (value : String) : Option PHASE :=
  if value = "Start" then some PHASE.Start
  else if value = "Discussion" then some PHASE.Discussion
  else if value = "Voting" then some PHASE.Voting
  else if value = "VotingResult" then some PHASE.VotingResult
  else if value = "Night" then some PHASE.Night
  else none

/-- Rule record from src/types/rule.ts (per-role counts). -/
structure Rule where
  wereWolves : Nat
  fortuneTellers : Nat
  mediumns : Nat
  hunters : Nat
  maniacs : Nat
  villagers : Nat
deriving DecidableEq, Repr

/-- User record from src/types/user.ts. -/
structure User where
  id : String
  name : String
  isHost : Bool
  role : ROLE
  isAlive : Bool
  voteCount : Nat
  isAwaiting : Bool
deriving DecidableEq, Repr

/-- Room record from src/types/room.ts. -/
structure Room where
  id : String
  name : String
  rule : Rule
  userIds : List String
  inProgress : Bool
  days : Nat
  phase : PHASE
  isFinalVoting : Bool
  lastLynched : Option String
  lastMurdered : Option String
  lastHunted : Option String
deriving DecidableEq, Repr

abbrev UserStore := List User
abbrev RoomStore := List Room

/-- `userStore.getUser`: look up a user record by id. -/
def getUser (s : UserStore) (id : String) : Option User :=
  s.find? (fun v => v.id == id)

/-- `userStore.setUser`: replace the record with the same id, or append. -/
def setUser (s : UserStore) (u : User) : UserStore :=
  match s with
  | [] => [u]
  | v :: t => if v.id == u.id then u :: t else v :: setUser t u

/-- `roomStore.getRoom`: look up a room record by id. -/
def getRoom (s : RoomStore) (id : String) : Option Room :=
  s.find? (fun v => v.id == id)

/-- `roomStore.setRoom`: replace the record with the same id, or append. -/
def setRoom (s : RoomStore) (r : Room) : RoomStore :=
  match s with
  | v :: t => if v.id == r.id then r :: t else v :: setRoom t r
  | [] => [r]

/-- Combined store state of the server. -/
structure ServerState where
  rooms : RoomStore
  users : UserStore
deriving DecidableEq, Repr

/-- `getUsersInRoom` from src/index.ts: all stored users whose id is in the
room's member list; an absent room yields `[]`. -/
def getUsersInRoom (st : ServerState) (roomId : String) : List User :=
  match getRoom st.rooms roomId with
  | some room => st.users.filter (fun u => room.userIds.contains u.id)
  | none => []

/-- `checkAwaitStatus` from src/index.ts: the barrier is complete when the
living members and the living awaiting members are equal in number. -/
def checkAwaitStatus (st : ServerState) (room : Room) : Bool :=
  let users := getUsersInRoom st room.id
  let aliveUsers := users.filter (fun v => v.isAlive)
  let awaitingUsers := aliveUsers.filter (fun v => v.isAwaiting)
  aliveUsers.length == awaitingUsers.length

/-- `resetIsAwaiting` from src/index.ts: clear every member's awaiting flag. -/
def resetIsAwaiting (st : ServerState) (room : Room) : ServerState :=
  { st with
    users := (getUsersInRoom st room.id).foldl
      (fun s v => setUser s { v with isAwaiting := false }) st.users }

/-- `resetVoteCount` from src/index.ts: zero every member's vote counter. -/
def resetVoteCount (st : ServerState) (room : Room) : ServerState :=
  { st with
    users := (getUsersInRoom st room.id).foldl
      (fun s v => setUser s { v with voteCount := 0 }) st.users }

/-- `getSuspects` from src/index.ts: ids of the members whose vote count
equals the maximum vote count over all members.  `Math.max()` over an empty
spread is `-Infinity` and matches no member, so an empty member list yields
`[]`; the fold below also yields `[]` there since the filter is over `[]`. -/
def getSuspects (st : ServerState) (room : Room) : List String :=
  let users := getUsersInRoom st room.id
  let max := (users.map (fun v => v.voteCount)).foldl Nat.max 0
  (users.filter (fun v => v.voteCount == max)).map (fun v => v.id)

/-- Result constants `HUMAN_WIN` / `WOLVES_WIN` / `CONTINUE_GAME`. -/
inductive Judgement where
  | HumanWin
  | WolvesWin
  | ContinueGame
deriving DecidableEq, Repr

/-- `judge` from src/index.ts: the win-condition check. -/
def judge (st : ServerState) (roomId : String) : Judgement :=
  match getRoom st.rooms roomId with
  | some _ =>
    let users := getUsersInRoom st roomId
    let aliveWolves := users.filter (fun v => v.isAlive && v.role == ROLE.WereWolf)
    let aliveHumans := users.filter (fun v => v.isAlive && !(v.role == ROLE.WereWolf))
    if aliveWolves.length == 0 then Judgement.HumanWin
    else if aliveHumans.length ≤ aliveWolves.length then Judgement.WolvesWin
    else Judgement.ContinueGame
  | none => Judgement.ContinueGame

/-- Messages emitted back through the socket layer by the modelled handlers. -/
inductive Emit where
  | vote (room : Room) (users : List User)
  | choice (room : Room)
  | awaitVoting (room : Room) (users : List User) (suspectUsers : List User)
  | awaitNight (room : Room) (users : List User)
  | gameSet (room : Room) (users : List User) (status : Judgement)
  | join (room : Room) (user : User)
  | onMemberChanged (room : Room) (users : List User)
  | leave (room : Room) (user : User)
  | onMemberChangedNames (room : Room) (names : List String)
  | getRoomReply (room : Room) (users : List User)
  | getUserReply (user : User)
  | murder (room : Room) (users : List User)
  | hunt (room : Room) (users : List User)
  | awaitStart (room : Room)
  | awaitDiscussion (room : Room) (users : List User)
  | awaitVotingResult (room : Room) (users : List User)
deriving DecidableEq, Repr

/-- The shared prologue of every `await*` handler:
`user.isAwaiting = true; userStore.setUser(user)`. -/
def markReady (st : ServerState) (user : User) : ServerState :=
  { st with users := setUser st.users { user with isAwaiting := true } }

/-- The `vote` event handler: increment the target's vote counter; a missing
room or target user is logged and dropped. -/
def voteHandler (st : ServerState) (roomId userId : String) : ServerState × List Emit :=
  match getRoom st.rooms roomId with
  | some room =>
    match getUser st.users userId with
    | some user =>
      let st1 : ServerState := { st with users := setUser st.users { user with voteCount := user.voteCount + 1 } }
      (st1, [Emit.vote room (getUsersInRoom st1 roomId)])
    | none => (st, [])
  | none => (st, [])

/-- Total role count of a rule (the length of the `choices` multiset). -/
def ruleSum (r : Rule) : Nat :=
  r.wereWolves + r.fortuneTellers + r.mediumns + r.hunters + r.maniacs + r.villagers

/-- The `choices` array built by the `choice` handler: each role repeated per
its configured count, in source push order. -/
def buildChoices (r : Rule) : List ROLE :=
  List.replicate r.wereWolves ROLE.WereWolf
    ++ List.replicate r.fortuneTellers ROLE.FortuneTeller
    ++ List.replicate r.mediumns ROLE.Medium
    ++ List.replicate r.hunters ROLE.Hunter
    ++ List.replicate r.maniacs ROLE.Maniac
    ++ List.replicate r.villagers ROLE.Villager

/-- One iteration of the in-place Fisher-Yates loop body:
`tmp = l[i]; l[i] = l[j]; l[j] = tmp` (both reads are from the original list,
as the source captures `tmp` before writing). -/
def swapL (l : List ROLE) (i j : Nat) : List ROLE :=
  (l.set i (l.getD j ROLE.Villager)).set j (l.getD i ROLE.Villager)

/-- The Fisher-Yates loop `for (i = len-1; i > 0; i--)`, with `rand i` the
value of `Math.floor(Math.random() * (i + 1))` at index `i`. -/
def fyAux (rand : Nat → Nat) : Nat → List ROLE → List ROLE
  | 0, l => l
  | i + 1, l => fyAux rand i (swapL l (i + 1) (rand (i + 1)))

/-- The full shuffle of the `choices` array. -/
def fisherYates (rand : Nat → Nat) (l : List ROLE) : List ROLE :=
  fyAux rand (l.length - 1) l

/-- The assignment loop of the `choice` handler: member at index `i` gets
`choices[i]`; a missing user record is logged and skipped.  Past the end of
`choices` the source assigns `undefined`; the embedding keeps the previous
role there — every theorem below stays inside the in-range case. -/
def assignRolesAux (choices : List ROLE) : List String → Nat → UserStore → UserStore
  | [], _, s => s
  | uid :: rest, i, s =>
    let s1 := match getUser s uid with
      | some u => setUser s { u with role := choices.getD i u.role }
      | none => s
    assignRolesAux choices rest (i + 1) s1

/-- The `choice` event handler: build the role multiset from the rule,
shuffle it, assign `choices[i]` to member `i`, bump the day counter and
broadcast; a missing room is logged and dropped. -/
def choiceHandler (rand : Nat → Nat) (st : ServerState) (roomId : String) : ServerState × List Emit :=
  match getRoom st.rooms roomId with
  | some room =>
    let choices := fisherYates rand (buildChoices room.rule)
    let users1 := assignRolesAux choices room.userIds 0 st.users
    let room1 := { room with days := room.days + 1 }
    let st1 : ServerState := { rooms := setRoom st.rooms room1, users := users1 }
    (st1, [Emit.choice room1])
  | none => (st, [])

/-- The `awaitVoting` event handler: mark the sender ready; when the barrier
completes, resolve the day vote (unique leader lynched, tie enters or leaves
final voting), reset votes, move to `VotingResult` and broadcast. -/
def awaitVotingHandler (st : ServerState) (roomId userId : String) : ServerState × List Emit :=
  match getRoom st.rooms roomId with
  | some room =>
    match getUser st.users userId with
    | some user =>
      let st1 := markReady st user
      if checkAwaitStatus st1 room then
        let st2 := resetIsAwaiting st1 room
        let suspects := getSuspects st2 room
        let stage :=
          match suspects with
          | [s] =>
            match getUser st2.users s with
            | some u =>
              let st3 : ServerState := { st2 with users := setUser st2.users { u with isAlive := false } }
              let room1 := { room with lastLynched := some s, isFinalVoting := false }
              let st4 : ServerState := { st3 with rooms := setRoom st3.rooms room1 }
              (resetVoteCount st4 room1, room1)
            | none => (st2, room)
          | _ =>
            if !room.isFinalVoting then
              let room1 := { room with isFinalVoting := true }
              let st3 : ServerState := { st2 with rooms := setRoom st2.rooms room1 }
              (resetVoteCount st3 room1, room1)
            else
              let room1 := { room with isFinalVoting := false }
              let st3 : ServerState := { st2 with rooms := setRoom st2.rooms room1 }
              (resetVoteCount st3 room1, room1)
        let room2 := { stage.2 with phase := PHASE.VotingResult }
        let st5 : ServerState := { stage.1 with rooms := setRoom stage.1.rooms room2 }
        let suspectUsers := (getUsersInRoom st5 roomId).filter (fun v => suspects.contains v.id)
        (st5, [Emit.awaitVoting room2 (getUsersInRoom st5 roomId) suspectUsers])
      else (st1, [])
    | none => (st, [])
  | none => (st, [])

/-- The `awaitNight` event handler: mark the sender ready; when the barrier
completes, resolve the night attack (unique leader dies unless it is the
protected `lastHunted` id; a tie fails outright), then judge the game:
terminal results broadcast `gameSet`, otherwise votes reset, protection
clears, the day advances and the room returns to Discussion. -/
def awaitNightHandler (st : ServerState) (roomId userId : String) : ServerState × List Emit :=
  match getRoom st.rooms roomId with
  | some room =>
    match getUser st.users userId with
    | some user =>
      let st1 := markReady st user
      if checkAwaitStatus st1 room then
        let st2 := resetIsAwaiting st1 room
        let suspects := getSuspects st2 room
        let stage :=
          match suspects with
          | [s] =>
            match getUser st2.users s with
            | some u =>
              if some u.id == room.lastHunted then (st2, room)
              else
                let st3 : ServerState := { st2 with users := setUser st2.users { u with isAlive := false } }
                let room1 := { room with lastMurdered := some s }
                ({ st3 with rooms := setRoom st3.rooms room1 }, room1)
            | none => (st2, room)
          | _ => (st2, room)
        let status := judge stage.1 roomId
        if status == Judgement.HumanWin || status == Judgement.WolvesWin then
          (stage.1, [Emit.gameSet stage.2 (getUsersInRoom stage.1 roomId) status])
        else
          let st4 := resetVoteCount stage.1 stage.2
          let room2 := { stage.2 with lastHunted := none, days := stage.2.days + 1, phase := PHASE.Discussion }
          let st5 : ServerState := { st4 with rooms := setRoom st4.rooms room2 }
          (st5, [Emit.awaitNight room2 (getUsersInRoom st5 roomId)])
      else (st1, [])
    | none => (st, [])
  | none => (st, [])

/-- The `murder` event handler: identical to `vote` except for the emitted
message; a missing room or target user is logged and dropped. -/
def murderHandler (st : ServerState) (roomId userId : String) : ServerState × List Emit :=
  match getRoom st.rooms roomId with
  | some room =>
    match getUser st.users userId with
    | some user =>
      let st1 : ServerState :=
        { st with users := setUser st.users { user with voteCount := user.voteCount + 1 } }
      (st1, [Emit.murder room (getUsersInRoom st1 roomId)])
    | none => (st, [])
  | none => (st, [])

/-- The `hunt` event handler: record the protected user id on the room; a
missing room or target user is logged and dropped. -/
def huntHandler (st : ServerState) (roomId userId : String) : ServerState × List Emit :=
  match getRoom st.rooms roomId with
  | some room =>
    match getUser st.users userId with
    | some user =>
      let room1 := { room with lastHunted := some user.id }
      let st1 : ServerState := { st with rooms := setRoom st.rooms room1 }
      (st1, [Emit.hunt room1 (getUsersInRoom st1 roomId)])
    | none => (st, [])
  | none => (st, [])

/-- The `join` event handler; `newId` stands for the randomly generated user
id.  A missing room (or a room already in progress) is logged and dropped. -/
def joinHandler (newId : String) (st : ServerState) (roomId : String) (user : User) :
    ServerState × List Emit :=
  let user1 := { user with id := newId, isHost := false }
  match getRoom st.rooms roomId with
  | some room =>
    if !room.inProgress then
      let room1 := { room with userIds := room.userIds ++ [user1.id] }
      let st1 : ServerState := { rooms := setRoom st.rooms room1, users := setUser st.users user1 }
      (st1, [Emit.join room1 user1, Emit.onMemberChanged room1 (getUsersInRoom st1 roomId)])
    else (st, [])
  | none => (st, [])

/-- The `leave` event handler: drop the user id from the member list; a
missing room is logged and dropped. -/
def leaveHandler (st : ServerState) (roomId : String) (user : User) : ServerState × List Emit :=
  match getRoom st.rooms roomId with
  | some room =>
    let room1 := { room with userIds := room.userIds.filter (fun v => !(v == user.id)) }
    let st1 : ServerState := { st with rooms := setRoom st.rooms room1 }
    (st1, [Emit.leave room1 user,
      Emit.onMemberChangedNames room1 ((getUsersInRoom st1 roomId).map (fun v => v.name))])
  | none => (st, [])

/-- The `getRoom` query handler: echo the room and its users; a missing room
is logged and dropped. -/
def getRoomHandler (st : ServerState) (roomId : String) : ServerState × List Emit :=
  match getRoom st.rooms roomId with
  | some room => (st, [Emit.getRoomReply room (getUsersInRoom st roomId)])
  | none => (st, [])

/-- The `getUser` query handler: echo the user record; a missing user is
logged and dropped. -/
def getUserHandler (st : ServerState) (userId : String) : ServerState × List Emit :=
  match getUser st.users userId with
  | some user => (st, [Emit.getUserReply user])
  | none => (st, [])

/-- The `awaitStart` event handler: mark the sender ready; when the barrier
completes, start the game (inProgress, day counter, Discussion phase). -/
def awaitStartHandler (st : ServerState) (roomId userId : String) : ServerState × List Emit :=
  match getRoom st.rooms roomId with
  | some room =>
    match getUser st.users userId with
    | some user =>
      let st1 := markReady st user
      if checkAwaitStatus st1 room then
        let st2 := resetIsAwaiting st1 room
        let room1 := { room with inProgress := true, days := room.days + 1, phase := PHASE.Discussion }
        let st3 : ServerState := { st2 with rooms := setRoom st2.rooms room1 }
        (st3, [Emit.awaitStart room1])
      else (st1, [])
    | none => (st, [])
  | none => (st, [])

/-- The `awaitDiscussion` event handler: mark the sender ready; when the
barrier completes, clear the last lynch/murder records and move to Voting. -/
def awaitDiscussionHandler (st : ServerState) (roomId userId : String) :
    ServerState × List Emit :=
  match getRoom st.rooms roomId with
  | some room =>
    match getUser st.users userId with
    | some user =>
      let st1 := markReady st user
      if checkAwaitStatus st1 room then
        let st2 := resetIsAwaiting st1 room
        let room1 := { room with lastLynched := none, lastMurdered := none, phase := PHASE.Voting }
        let st3 : ServerState := { st2 with rooms := setRoom st2.rooms room1 }
        (st3, [Emit.awaitDiscussion room1 (getUsersInRoom st3 roomId)])
      else (st1, [])
    | none => (st, [])
  | none => (st, [])

/-- The `awaitVotingResult` event handler: mark the sender ready; when the
barrier completes, replay Discussion during final voting, otherwise judge the
game and either finish or move to Night. -/
def awaitVotingResultHandler (st : ServerState) (roomId userId : String) :
    ServerState × List Emit :=
  match getRoom st.rooms roomId with
  | some room =>
    match getUser st.users userId with
    | some user =>
      let st1 := markReady st user
      if checkAwaitStatus st1 room then
        let st2 := resetIsAwaiting st1 room
        if room.isFinalVoting then
          let room1 := { room with phase := PHASE.Discussion }
          let st3 : ServerState := { st2 with rooms := setRoom st2.rooms room1 }
          (st3, [Emit.awaitVotingResult room1 (getUsersInRoom st3 roomId)])
        else
          let status := judge st2 roomId
          if status == Judgement.HumanWin || status == Judgement.WolvesWin then
            (st2, [Emit.gameSet room (getUsersInRoom st2 roomId) status])
          else
            let room1 := { room with phase := PHASE.Night }
            let st3 : ServerState := { st2 with rooms := setRoom st2.rooms room1 }
            (st3, [Emit.awaitVotingResult room1 (getUsersInRoom st3 roomId)])
      else (st1, [])
    | none => (st, [])
  | none => (st, [])

/-! Concrete states used to instantiate the theorems below. -/

/-- A two-player rule: one werewolf, one villager. -/
def exRule : Rule :=
  { wereWolves := 1, fortuneTellers := 0, mediumns := 0,
    hunters := 0, maniacs := 0, villagers := 1 }

/-- A five-player rule: one werewolf, four villagers. -/
def exRule5 : Rule :=
  { wereWolves := 1, fortuneTellers := 0, mediumns := 0,
    hunters := 0, maniacs := 0, villagers := 4 }

/-- Living werewolf holding two votes, already ready. -/
def exUserA : User :=
  { id := "a", name := "A", isHost := true, role := ROLE.WereWolf,
    isAlive := true, voteCount := 2, isAwaiting := true }

/-- Living villager with no votes, not yet ready. -/
def exUserB : User :=
  { id := "b", name := "B", isHost := false, role := ROLE.Villager,
    isAlive := true, voteCount := 0, isAwaiting := false }

/-- A two-member room in the Voting phase, not in final voting. -/
def exRoom : Room :=
  { id := "r", name := "R", rule := exRule, userIds := ["a", "b"],
    inProgress := true, days := 1, phase := PHASE.Voting,
    isFinalVoting := false, lastLynched := none, lastMurdered := none,
    lastHunted := none }

/-- State where member `a` uniquely leads the day vote. -/
def exStateLynch : ServerState := { rooms := [exRoom], users := [exUserA, exUserB] }

/-- State where members `a` and `b` tie the day vote at one each. -/
def exStateTie : ServerState :=
  { rooms := [exRoom],
    users := [{ exUserA with voteCount := 1 }, { exUserB with voteCount := 1 }] }

/-- Night-phase room protecting member `a`. -/
def exRoomNight : Room := { exRoom with phase := PHASE.Night, lastHunted := some "a" }

/-- State where member `a` uniquely leads the night vote but is protected. -/
def exStateNight : ServerState := { rooms := [exRoomNight], users := [exUserA, exUserB] }

/-- Room whose only member id has no user record in the store. -/
def exRoomOrphan : Room := { exRoom with userIds := ["c"] }

/-- State holding `exRoomOrphan` and an empty user store. -/
def exStateOrphan : ServerState := { rooms := [exRoomOrphan], users := [] }

/-- State with no rooms and no users at all. -/
def exStateEmpty : ServerState := { rooms := [], users := [] }

/-- One living wolf facing three living humans for the judge examples. -/
def exStateQuad : ServerState :=
  { rooms := [{ exRoom with rule := exRule5, userIds := ["a", "b", "c", "d"] }],
    users := [exUserA, exUserB,
      { exUserB with id := "c" }, { exUserB with id := "d" }] }

/-- One living wolf facing one living human. -/
def exStateDuel : ServerState :=
  { rooms := [exRoom], users := [exUserA, exUserB] }

/-- The degenerate random source used by the concrete shuffles. -/
def exRand : Nat → Nat := fun _ => 0

/-- Variant of `exStateLynch` whose room is already in final-voting mode. -/
def exStateLynchFV : ServerState :=
  { rooms := [{ exRoom with isFinalVoting := true }], users := [exUserA, exUserB] }

/-! ### Store lemmas -/

theorem getUser_eq_some_id {s : UserStore} {i : String} {u : User}
    (h : getUser s i = some u) : u.id = i := by
  unfold getUser at h
  simpa using List.find?_some h

theorem getUser_mem {s : UserStore} {i : String} {u : User}
    (h : getUser s i = some u) : u ∈ s := by
  unfold getUser at h
  exact List.mem_of_find?_eq_some h

theorem getRoom_eq_some_id {s : RoomStore} {i : String} {r : Room}
    (h : getRoom s i = some r) : r.id = i := by
  unfold getRoom at h
  simpa using List.find?_some h

theorem getUser_setUser (s : UserStore) (u : User) (i : String) :
    getUser (setUser s u) i = if u.id = i then some u else getUser s i := by
  induction s with
  | nil =>
    simp only [getUser, setUser, List.find?]
    by_cases h : u.id = i
    · rw [show (u.id == i) = true by simp [h], if_pos h]
    · rw [show (u.id == i) = false by simp [h], if_neg h]
  | cons v t ih =>
    simp only [setUser]
    by_cases hv : v.id = u.id
    · rw [if_pos (by simp [hv])]
      simp only [getUser, List.find?]
      by_cases h : u.id = i
      · rw [show (u.id == i) = true by simp [h], if_pos h]
      · rw [show (u.id == i) = false by simp [h], if_neg h,
          show (v.id == i) = false by simp [hv, h]]
    · rw [if_neg (by simp [hv])]
      simp only [getUser, List.find?] at ih ⊢
      by_cases h : v.id = i
      · have hui : ¬ u.id = i := fun hc => hv (hc.trans h.symm).symm
        rw [show (v.id == i) = true by simp [h], if_neg hui]
      · rw [show (v.id == i) = false by simp [h]]
        exact ih

theorem getRoom_setRoom (s : RoomStore) (r : Room) (i : String) :
    getRoom (setRoom s r) i = if r.id = i then some r else getRoom s i := by
  induction s with
  | nil =>
    simp only [getRoom, setRoom, List.find?]
    by_cases h : r.id = i
    · rw [show (r.id == i) = true by simp [h], if_pos h]
    · rw [show (r.id == i) = false by simp [h], if_neg h]
  | cons v t ih =>
    simp only [setRoom]
    by_cases hv : v.id = r.id
    · rw [if_pos (by simp [hv])]
      simp only [getRoom, List.find?]
      by_cases h : r.id = i
      · rw [show (r.id == i) = true by simp [h], if_pos h]
      · rw [show (r.id == i) = false by simp [h], if_neg h,
          show (v.id == i) = false by simp [hv, h]]
    · rw [if_neg (by simp [hv])]
      simp only [getRoom, List.find?] at ih ⊢
      by_cases h : v.id = i
      · have hui : ¬ r.id = i := fun hc => hv (hc.trans h.symm).symm
        rw [show (v.id == i) = true by simp [h], if_neg hui]
      · rw [show (v.id == i) = false by simp [h]]
        exact ih

theorem find?_id_of_mem_nodup {s : UserStore} (hnd : (s.map User.id).Nodup)
    {w : User} (hw : w ∈ s) :
    s.find? (fun v => v.id == w.id) = some w := by
  induction s with
  | nil => cases hw
  | cons v t ih =>
    rw [List.map_cons, List.nodup_cons] at hnd
    obtain ⟨hv, hnd2⟩ := hnd
    rcases List.mem_cons.mp hw with h | h
    · subst h
      simp [List.find?]
    · have hne : ¬ (v.id == w.id) = true := by
        simp only [beq_iff_eq]
        intro hc
        exact hv (hc ▸ List.mem_map_of_mem User.id h)
      simp [List.find?, hne]
      exact ih hnd2 h

theorem getUser_of_mem_nodup {s : UserStore} (hnd : (s.map User.id).Nodup)
    {w : User} (hw : w ∈ s) : getUser s w.id = some w :=
  find?_id_of_mem_nodup hnd hw

theorem mem_ids_setUser {s : UserStore} {u : User} {x : String}
    (h : x ∈ (setUser s u).map User.id) : x ∈ s.map User.id ∨ x = u.id := by
  induction s with
  | nil =>
    right
    simpa [setUser] using h
  | cons v t ih =>
    simp only [setUser] at h
    by_cases hv : v.id = u.id
    · rw [if_pos (by simp [hv])] at h
      rcases (by simpa using h : x = u.id ∨ x ∈ t.map User.id) with h2 | h2
      · right; exact h2
      · left; simp [h2]
    · rw [if_neg (by simp [hv])] at h
      rcases (by simpa using h : x = v.id ∨ x ∈ (setUser t u).map User.id) with h2 | h2
      · left; simp [h2]
      · rcases ih h2 with h3 | h3
        · left; simp [h3]
        · right; exact h3

theorem nodup_ids_setUser {s : UserStore} (u : User)
    (hnd : (s.map User.id).Nodup) : ((setUser s u).map User.id).Nodup := by
  induction s with
  | nil => simp [setUser]
  | cons v t ih =>
    rw [List.map_cons, List.nodup_cons] at hnd
    obtain ⟨hv, hnd2⟩ := hnd
    simp only [setUser]
    by_cases hveq : v.id = u.id
    · rw [if_pos (by simp [hveq])]
      rw [List.map_cons, List.nodup_cons]
      exact ⟨hveq ▸ hv, hnd2⟩
    · rw [if_neg (by simp [hveq])]
      rw [List.map_cons, List.nodup_cons]
      refine ⟨fun hc => ?_, ih hnd2⟩
      rcases mem_ids_setUser hc with h | h
      · exact hv h
      · exact hveq h

theorem nodup_ids_foldl_setUser (f : User → User) (l : List User)
    {s : UserStore} (hnd : (s.map User.id).Nodup) :
    ((l.foldl (fun acc v => setUser acc (f v)) s).map User.id).Nodup := by
  induction l generalizing s with
  | nil => simpa using hnd
  | cons v t ih => exact ih (nodup_ids_setUser (f v) hnd)

theorem getUser_foldl_setUser (f : User → User) (hf : ∀ u, (f u).id = u.id)
    (l : List User) (s : UserStore) (i : String) :
    getUser (l.foldl (fun acc v => setUser acc (f v)) s) i =
      match l.reverse.find? (fun v => v.id == i) with
      | some v => some (f v)
      | none => getUser s i := by
  induction l generalizing s with
  | nil => simp
  | cons v t ih =>
    rw [List.foldl_cons, ih, List.reverse_cons, List.find?_append]
    cases h : t.reverse.find? (fun w => w.id == i) with
    | some w => simp [h, Option.orElse]
    | none =>
      simp only [h, Option.orElse, List.find?]
      by_cases hv : v.id = i
      · rw [show (v.id == i) = true by simp [hv]]
        rw [getUser_setUser, if_pos (by rw [hf, hv])]
        simp
      · rw [show (v.id == i) = false by simp [hv]]
        rw [getUser_setUser, if_neg (by rw [hf]; exact hv)]
        simp

theorem resetIsAwaiting_rooms (st : ServerState) (room : Room) :
    (resetIsAwaiting st room).rooms = st.rooms := rfl

theorem resetVoteCount_rooms (st : ServerState) (room : Room) :
    (resetVoteCount st room).rooms = st.rooms := rfl

theorem markReady_rooms (st : ServerState) (user : User) :
    (markReady st user).rooms = st.rooms := rfl

theorem getUsersInRoom_eq_filter {st : ServerState} {rid : String} {room0 : Room}
    (hst : getRoom st.rooms rid = some room0) :
    getUsersInRoom st rid = st.users.filter (fun u => room0.userIds.contains u.id) := by
  unfold getUsersInRoom
  rw [hst]

theorem getUser_foldSnapshot (f : User → User) (hf : ∀ u, (f u).id = u.id)
    (st : ServerState) (room : Room) (room0 : Room) (i : String)
    (hst : getRoom st.rooms room.id = some room0)
    (hnd : (st.users.map User.id).Nodup) :
    getUser ((getUsersInRoom st room.id).foldl (fun s v => setUser s (f v)) st.users) i =
      match getUser st.users i with
      | some u => if room0.userIds.contains u.id then some (f u) else some u
      | none => none := by
  rw [getUser_foldl_setUser f hf, getUsersInRoom_eq_filter hst]
  cases hu : getUser st.users i with
  | none =>
    have hu2 := hu
    rw [getUser] at hu2
    have hnone : (st.users.filter (fun v => room0.userIds.contains v.id)).reverse.find?
        (fun v => v.id == i) = none := by
      rw [List.find?_eq_none]
      intro w hw
      exact List.find?_eq_none.mp hu2 w (List.mem_filter.mp (List.mem_reverse.mp hw)).1
    rw [hnone]
  | some u =>
    have hid : u.id = i := getUser_eq_some_id hu
    have hmem : u ∈ st.users := getUser_mem hu
    by_cases hc : (room0.userIds.contains u.id) = true
    · have hmem2 : u ∈ (st.users.filter (fun v => room0.userIds.contains v.id)).reverse := by
        rw [List.mem_reverse, List.mem_filter]
        exact ⟨hmem, hc⟩
      have hndsnap : ((st.users.filter
          (fun v => room0.userIds.contains v.id)).reverse.map User.id).Nodup := by
        rw [List.map_reverse, List.nodup_reverse]
        exact List.Nodup.sublist ((List.filter_sublist _).map User.id) hnd
      have hfind := find?_id_of_mem_nodup hndsnap hmem2
      rw [hid] at hfind
      rw [hfind]
      show some (f u) = if room0.userIds.contains u.id = true then some (f u) else some u
      rw [if_pos hc]
    · have hnone : (st.users.filter (fun v => room0.userIds.contains v.id)).reverse.find?
          (fun v => v.id == i) = none := by
        rw [List.find?_eq_none]
        intro w hw hwid
        rw [List.mem_reverse, List.mem_filter] at hw
        have hwid2 : w.id = i := by simpa using hwid
        have huniq := getUser_of_mem_nodup hnd hw.1
        rw [hwid2, hu] at huniq
        have hw_eq : u = w := by injection huniq
        exact hc (hw_eq ▸ hw.2)
      rw [hnone]
      show some u = if room0.userIds.contains u.id = true then some (f u) else some u
      rw [if_neg hc]

theorem getUser_resetIsAwaiting (st : ServerState) (room room0 : Room) (i : String)
    (hst : getRoom st.rooms room.id = some room0)
    (hnd : (st.users.map User.id).Nodup) :
    getUser (resetIsAwaiting st room).users i =
      match getUser st.users i with
      | some u =>
        if room0.userIds.contains u.id then some { u with isAwaiting := false } else some u
      | none => none :=
  getUser_foldSnapshot (fun v => { v with isAwaiting := false }) (fun _ => rfl)
    st room room0 i hst hnd

theorem getUser_resetVoteCount (st : ServerState) (room room0 : Room) (i : String)
    (hst : getRoom st.rooms room.id = some room0)
    (hnd : (st.users.map User.id).Nodup) :
    getUser (resetVoteCount st room).users i =
      match getUser st.users i with
      | some u =>
        if room0.userIds.contains u.id then some { u with voteCount := 0 } else some u
      | none => none :=
  getUser_foldSnapshot (fun v => { v with voteCount := 0 }) (fun _ => rfl)
    st room room0 i hst hnd

theorem nodup_markReady (st : ServerState) (user : User)
    (hnd : (st.users.map User.id).Nodup) :
    ((markReady st user).users.map User.id).Nodup :=
  nodup_ids_setUser _ hnd

theorem nodup_resetIsAwaiting (st : ServerState) (room : Room)
    (hnd : (st.users.map User.id).Nodup) :
    ((resetIsAwaiting st room).users.map User.id).Nodup :=
  nodup_ids_foldl_setUser _ _ hnd

theorem nodup_resetVoteCount (st : ServerState) (room : Room)
    (hnd : (st.users.map User.id).Nodup) :
    ((resetVoteCount st room).users.map User.id).Nodup :=
  nodup_ids_foldl_setUser _ _ hnd

/-! ### Maximum-fold lemmas for `getSuspects` -/

theorem le_foldl_max (l : List Nat) (a : Nat) : a ≤ l.foldl Nat.max a := by
  induction l generalizing a with
  | nil => exact Nat.le_refl a
  | cons x t ih => exact Nat.le_trans (Nat.le_max_left a x) (ih (Nat.max a x))

theorem foldl_max_le {l : List Nat} {x : Nat} (a : Nat) (hx : x ∈ l) :
    x ≤ l.foldl Nat.max a := by
  induction l generalizing a with
  | nil => cases hx
  | cons y t ih =>
    rcases List.mem_cons.mp hx with h | h
    · subst h
      exact Nat.le_trans (Nat.le_max_right a x) (le_foldl_max t (Nat.max a x))
    · exact ih (Nat.max a y) h

theorem foldl_max_mem (l : List Nat) (a : Nat) :
    l.foldl Nat.max a = a ∨ l.foldl Nat.max a ∈ l := by
  induction l generalizing a with
  | nil => left; rfl
  | cons y t ih =>
    rcases ih (Nat.max a y) with h | h
    · by_cases hay : a ≤ y
      · right
        rw [List.foldl_cons, h, show Nat.max a y = y from Nat.max_eq_right hay]
        exact List.mem_cons_self y t
      · left
        rw [List.foldl_cons, h,
          show Nat.max a y = a from Nat.max_eq_left (Nat.le_of_not_le hay)]
    · right
      exact List.mem_cons_of_mem y h

theorem isAlive_resetIsAwaiting (st : ServerState) (room room0 : Room) (i : String)
    (hst : getRoom st.rooms room.id = some room0)
    (hnd : (st.users.map User.id).Nodup) :
    (getUser (resetIsAwaiting st room).users i).map User.isAlive
      = (getUser st.users i).map User.isAlive := by
  rw [getUser_resetIsAwaiting st room room0 i hst hnd]
  cases hg : getUser st.users i with
  | none => rfl
  | some u =>
    show Option.map User.isAlive
      (if room0.userIds.contains u.id = true
        then some { u with isAwaiting := false } else some u) = _
    by_cases hc : (room0.userIds.contains u.id) = true
    · rw [if_pos hc]
      rfl
    · rw [if_neg hc]

theorem isAlive_resetVoteCount (st : ServerState) (room room0 : Room) (i : String)
    (hst : getRoom st.rooms room.id = some room0)
    (hnd : (st.users.map User.id).Nodup) :
    (getUser (resetVoteCount st room).users i).map User.isAlive
      = (getUser st.users i).map User.isAlive := by
  rw [getUser_resetVoteCount st room room0 i hst hnd]
  cases hg : getUser st.users i with
  | none => rfl
  | some u =>
    show Option.map User.isAlive
      (if room0.userIds.contains u.id = true
        then some { u with voteCount := 0 } else some u) = _
    by_cases hc : (room0.userIds.contains u.id) = true
    · rw [if_pos hc]
      rfl
    · rw [if_neg hc]

theorem isAlive_markReady (st : ServerState) (userId : String) (user : User) (i : String)
    (huser : getUser st.users userId = some user) :
    (getUser (markReady st user).users i).map User.isAlive
      = (getUser st.users i).map User.isAlive := by
  unfold markReady
  show (getUser (setUser st.users { user with isAwaiting := true }) i).map User.isAlive = _
  rw [getUser_setUser]
  by_cases h : user.id = i
  · rw [if_pos h]
    have hid : user.id = userId := getUser_eq_some_id huser
    rw [← h, hid, huser]
    rfl
  · rw [if_neg h]

theorem contains_of_mem_getSuspects {st : ServerState} {room : Room} {s : String}
    (room0 : Room) (hst : getRoom st.rooms room.id = some room0)
    (h : s ∈ getSuspects st room) :
    room0.userIds.contains s = true := by
  unfold getSuspects at h
  rw [getUsersInRoom_eq_filter hst] at h
  simp only [List.mem_map, List.mem_filter] at h
  obtain ⟨u, ⟨⟨hmem, hcont⟩, hcnt⟩, hid⟩ := h
  rw [← hid]
  exact hcont

/-! ### Claim theorems -/

/-- Claim C5: the barrier-completion check returns true iff every living member
of the room has its awaiting flag set; dead members' flags never affect the
result, and a room with zero living members is vacuously complete. -/
theorem claim_C5_checkAwaitStatus (st : ServerState) (room : Room) :
    (checkAwaitStatus st room = true ↔
      ∀ u ∈ getUsersInRoom st room.id, u.isAlive = true → u.isAwaiting = true) ∧
    ((getUsersInRoom st room.id).filter (fun v => v.isAlive) = [] →
      checkAwaitStatus st room = true) := by
  have hmain : checkAwaitStatus st room = true ↔
      ∀ u ∈ getUsersInRoom st room.id, u.isAlive = true → u.isAwaiting = true := by
    unfold checkAwaitStatus
    rw [beq_iff_eq]
    constructor
    · intro h u hu halive
      have hall := List.filter_length_eq_length.mp h.symm
      exact hall u (List.mem_filter.mpr ⟨hu, halive⟩)
    · intro h
      refine (List.filter_length_eq_length.mpr ?_).symm
      intro u hu
      obtain ⟨hmem, halive⟩ := List.mem_filter.mp hu
      exact h u hmem halive
  refine ⟨hmain, fun hempty => ?_⟩
  rw [hmain]
  intro u hu halive
  have : u ∈ (getUsersInRoom st room.id).filter (fun v => v.isAlive) :=
    List.mem_filter.mpr ⟨hu, halive⟩
  rw [hempty] at this
  cases this

/-- Claim C6: `getSuspects` computes the maximum vote count over all current
room members, living and dead alike, and returns exactly the ids of the
members whose vote count equals that maximum; a room with no members yields
the empty list without crashing. -/
theorem claim_C6_getSuspects (st : ServerState) (room : Room) :
    (getUsersInRoom st room.id = [] → getSuspects st room = []) ∧
    ∀ i, i ∈ getSuspects st room ↔
      ∃ u, u ∈ getUsersInRoom st room.id ∧ u.id = i ∧
        ∀ v ∈ getUsersInRoom st room.id, v.voteCount ≤ u.voteCount := by
  constructor
  · intro h
    unfold getSuspects
    rw [h]
    rfl
  · intro i
    unfold getSuspects
    simp only [List.mem_map, List.mem_filter]
    constructor
    · rintro ⟨u, ⟨hu, hcount⟩, hid⟩
      rw [beq_iff_eq] at hcount
      refine ⟨u, hu, hid, fun v hv => ?_⟩
      have hle : v.voteCount ≤
          ((getUsersInRoom st room.id).map (fun v => v.voteCount)).foldl Nat.max 0 :=
        foldl_max_le 0 (List.mem_map_of_mem _ hv)
      rw [← hcount] at hle
      exact hle
    · rintro ⟨u, hu, hid, hmax⟩
      refine ⟨u, ⟨hu, ?_⟩, hid⟩
      rw [beq_iff_eq]
      have h1 : u.voteCount ≤
          ((getUsersInRoom st room.id).map (fun v => v.voteCount)).foldl Nat.max 0 :=
        foldl_max_le 0 (List.mem_map_of_mem _ hu)
      have h2 : ((getUsersInRoom st room.id).map (fun v => v.voteCount)).foldl Nat.max 0
          ≤ u.voteCount := by
        rcases foldl_max_mem ((getUsersInRoom st room.id).map (fun v => v.voteCount)) 0
          with h | h
        · rw [h]
          exact Nat.zero_le _
        · rcases List.mem_map.mp h with ⟨v, hv, hveq⟩
          rw [← hveq]
          exact hmax v hv
      exact Nat.le_antisymm h1 h2

/-- Claim C1: the win-condition judge returns human-win exactly when the number
of living WereWolf-role members is zero; otherwise wolf-win exactly when the
living wolves are at least as many as the living non-wolves; otherwise the
game continues (so 1 wolf vs 1 human is wolf-win and 1 wolf vs 3 humans is
continue). -/
theorem claim_C1_judge (st : ServerState) (roomId : String) (room : Room)
    (hroom : getRoom st.rooms roomId = some room) :
    (judge st roomId = Judgement.HumanWin ↔
      ((getUsersInRoom st roomId).filter
        (fun v => v.isAlive && v.role == ROLE.WereWolf)).length = 0) ∧
    (judge st roomId = Judgement.WolvesWin ↔
      (((getUsersInRoom st roomId).filter
          (fun v => v.isAlive && v.role == ROLE.WereWolf)).length ≠ 0 ∧
        ((getUsersInRoom st roomId).filter
          (fun v => v.isAlive && !(v.role == ROLE.WereWolf))).length ≤
        ((getUsersInRoom st roomId).filter
          (fun v => v.isAlive && v.role == ROLE.WereWolf)).length)) ∧
    (judge st roomId = Judgement.ContinueGame ↔
      (((getUsersInRoom st roomId).filter
          (fun v => v.isAlive && v.role == ROLE.WereWolf)).length ≠ 0 ∧
        ((getUsersInRoom st roomId).filter
          (fun v => v.isAlive && v.role == ROLE.WereWolf)).length <
        ((getUsersInRoom st roomId).filter
          (fun v => v.isAlive && !(v.role == ROLE.WereWolf))).length)) := by
  unfold judge
  rw [hroom]
  by_cases h0 : ((getUsersInRoom st roomId).filter
      (fun v => v.isAlive && v.role == ROLE.WereWolf)).length = 0
  · simp [h0]
  · by_cases h1 : ((getUsersInRoom st roomId).filter
        (fun v => v.isAlive && !(v.role == ROLE.WereWolf))).length ≤
        ((getUsersInRoom st roomId).filter
          (fun v => v.isAlive && v.role == ROLE.WereWolf)).length
    · simp [h0, h1]
    · simp [h0, h1]
      omega

/-- Witness for claim C1 at two concrete states: one living wolf versus one
living human yields wolf-win, and one living wolf versus three living humans
continues the game. -/
theorem claim_C1_judge_witness :
    (getRoom exStateDuel.rooms "r" = some exRoom ∧
      judge exStateDuel "r" = Judgement.WolvesWin) ∧
    (getRoom exStateQuad.rooms "r" =
        some { exRoom with rule := exRule5, userIds := ["a", "b", "c", "d"] } ∧
      judge exStateQuad "r" = Judgement.ContinueGame) :=
  ⟨⟨by decide,
    ((claim_C1_judge exStateDuel "r" exRoom (by decide)).2.1).mpr (by decide)⟩,
   ⟨by decide,
    ((claim_C1_judge exStateQuad "r"
      { exRoom with rule := exRule5, userIds := ["a", "b", "c", "d"] }
      (by decide)).2.2).mpr (by decide)⟩⟩

/-- Claim C9: the phase and role string decoders are strict round-trips: each
variant's encoding decodes to that variant, and every other string fails to
decode. -/
theorem claim_C9_decoders :
    (∀ r, getRoleByString (roleToString r) = some r) ∧
    (∀ p, getPhaseByString (phaseToString p) = some p) ∧
    (∀ s, getRoleByString s = none ↔ ∀ r, s ≠ roleToString r) ∧
    (∀ s, getPhaseByString s = none ↔ ∀ p, s ≠ phaseToString p) := by
  refine ⟨fun r => ?_, fun p => ?_, fun s => ⟨fun h r hs => ?_, fun h => ?_⟩,
    fun s => ⟨fun h p hs => ?_, fun h => ?_⟩⟩
  · cases r <;> rfl
  · cases p <;> rfl
  · subst hs
    cases r <;> simp [getRoleByString, roleToString] at h
  · unfold getRoleByString
    rw [if_neg (show ¬ s = "WereWolf" from h ROLE.WereWolf),
      if_neg (show ¬ s = "FortuneTeller" from h ROLE.FortuneTeller),
      if_neg (show ¬ s = "Medium" from h ROLE.Medium),
      if_neg (show ¬ s = "Hunter" from h ROLE.Hunter),
      if_neg (show ¬ s = "Maniac" from h ROLE.Maniac),
      if_neg (show ¬ s = "Villager" from h ROLE.Villager)]
  · subst hs
    cases p <;> simp [getPhaseByString, phaseToString] at h
  · unfold getPhaseByString
    rw [if_neg (show ¬ s = "Start" from h PHASE.Start),
      if_neg (show ¬ s = "Discussion" from h PHASE.Discussion),
      if_neg (show ¬ s = "Voting" from h PHASE.Voting),
      if_neg (show ¬ s = "VotingResult" from h PHASE.VotingResult),
      if_neg (show ¬ s = "Night" from h PHASE.Night)]

theorem awaitVoting_lynch_state (st : ServerState) (roomId userId : String)
    (room : Room) (user : User) (s : String) (u : User)
    (hroom : getRoom st.rooms roomId = some room)
    (huser : getUser st.users userId = some user)
    (hbar : checkAwaitStatus (markReady st user) room = true)
    (hsusp : getSuspects (resetIsAwaiting (markReady st user) room) room = [s])
    (hu : getUser (resetIsAwaiting (markReady st user) room).users s = some u) :
    (awaitVotingHandler st roomId userId).1 =
      { rooms := setRoom (setRoom st.rooms
            { room with lastLynched := some s, isFinalVoting := false })
          { room with lastLynched := some s, isFinalVoting := false, phase := PHASE.VotingResult },
        users := (resetVoteCount
          { rooms := setRoom st.rooms
              { room with lastLynched := some s, isFinalVoting := false },
            users := setUser (resetIsAwaiting (markReady st user) room).users
              { u with isAlive := false } }
          { room with lastLynched := some s, isFinalVoting := false }).users } := by
  simp only [awaitVotingHandler, hroom, huser, hbar, hsusp, hu, if_true,
    markReady_rooms, resetIsAwaiting_rooms, resetVoteCount_rooms]

theorem awaitVoting_tie_state (st : ServerState) (roomId userId : String)
    (room : Room) (user : User) (s1 s2 : String) (rest : List String)
    (hroom : getRoom st.rooms roomId = some room)
    (huser : getUser st.users userId = some user)
    (hbar : checkAwaitStatus (markReady st user) room = true)
    (hsusp : getSuspects (resetIsAwaiting (markReady st user) room) room = s1 :: s2 :: rest)
    (hfv : room.isFinalVoting = false) :
    (awaitVotingHandler st roomId userId).1 =
      { rooms := setRoom (setRoom st.rooms { room with isFinalVoting := true })
          { room with isFinalVoting := true, phase := PHASE.VotingResult },
        users := (resetVoteCount
          { rooms := setRoom st.rooms { room with isFinalVoting := true },
            users := (resetIsAwaiting (markReady st user) room).users }
          { room with isFinalVoting := true }).users } := by
  simp only [awaitVotingHandler, hroom, huser, hbar, hsusp, hfv, if_true,
    Bool.not_false, markReady_rooms, resetIsAwaiting_rooms, resetVoteCount_rooms]

theorem awaitNight_protected_state (st : ServerState) (roomId userId : String)
    (room : Room) (user : User) (s : String) (u : User)
    (hroom : getRoom st.rooms roomId = some room)
    (huser : getUser st.users userId = some user)
    (hbar : checkAwaitStatus (markReady st user) room = true)
    (hsusp : getSuspects (resetIsAwaiting (markReady st user) room) room = [s])
    (hu : getUser (resetIsAwaiting (markReady st user) room).users s = some u)
    (hprot : room.lastHunted = some u.id) :
    (awaitNightHandler st roomId userId).1 =
      if judge (resetIsAwaiting (markReady st user) room) roomId == Judgement.HumanWin
          || judge (resetIsAwaiting (markReady st user) room) roomId == Judgement.WolvesWin
      then resetIsAwaiting (markReady st user) room
      else
        { rooms := setRoom st.rooms { room with lastHunted := none, days := room.days + 1, phase := PHASE.Discussion },
          users := (resetVoteCount (resetIsAwaiting (markReady st user) room) room).users } := by
  simp only [awaitNightHandler, hroom, huser, hbar, hsusp, hu, hprot, if_true,
    beq_self_eq_true, markReady_rooms, resetIsAwaiting_rooms, resetVoteCount_rooms]
  split
  · rfl
  · rfl

/-- Claim C3: when the Voting-phase barrier completes with exactly one vote
leader whose User record is present, the handler marks that user not alive,
sets the room's lastLynched to that user's id, resets every member's vote
count to zero, and sets the room's phase to VotingResult. -/
theorem claim_C3_awaitVoting_lynch (st : ServerState) (roomId userId : String)
    (room : Room) (user : User) (s : String) (u : User)
    (hnd : (st.users.map User.id).Nodup)
    (hroom : getRoom st.rooms roomId = some room)
    (huser : getUser st.users userId = some user)
    (hbar : checkAwaitStatus (markReady st user) room = true)
    (hsusp : getSuspects (resetIsAwaiting (markReady st user) room) room = [s])
    (hu : getUser (resetIsAwaiting (markReady st user) room).users s = some u) :
    getUser (awaitVotingHandler st roomId userId).1.users s =
        some { u with isAlive := false, voteCount := 0 } ∧
    getRoom (awaitVotingHandler st roomId userId).1.rooms roomId =
        some { room with lastLynched := some s, isFinalVoting := false, phase := PHASE.VotingResult } ∧
    (∀ i u2, room.userIds.contains i = true →
      getUser (awaitVotingHandler st roomId userId).1.users i = some u2 →
      u2.voteCount = 0) := by
  have hrid : room.id = roomId := getRoom_eq_some_id hroom
  have hstate := awaitVoting_lynch_state st roomId userId room user s u hroom huser hbar hsusp hu
  rw [hstate]
  have hnd2 : ((resetIsAwaiting (markReady st user) room).users.map User.id).Nodup :=
    nodup_resetIsAwaiting (markReady st user) room (nodup_markReady st user hnd)
  have hus : u.id = s := getUser_eq_some_id hu
  have hst2rooms : getRoom (resetIsAwaiting (markReady st user) room).rooms room.id = some room := by
    rw [resetIsAwaiting_rooms, markReady_rooms, hrid]
    exact hroom
  have hcs : room.userIds.contains s = true :=
    contains_of_mem_getSuspects room hst2rooms (by rw [hsusp]; exact List.mem_singleton.mpr rfl)
  have hnd4 : ((setUser (resetIsAwaiting (markReady st user) room).users
      { u with isAlive := false }).map User.id).Nodup := nodup_ids_setUser _ hnd2
  have hst4room : getRoom (setRoom st.rooms
      { room with lastLynched := some s, isFinalVoting := false })
      ({ room with lastLynched := some s, isFinalVoting := false } : Room).id =
      some { room with lastLynched := some s, isFinalVoting := false } := by
    rw [getRoom_setRoom, if_pos rfl]
  have hchar : ∀ i, getUser (resetVoteCount
      { rooms := setRoom st.rooms { room with lastLynched := some s, isFinalVoting := false },
        users := setUser (resetIsAwaiting (markReady st user) room).users { u with isAlive := false } }
      { room with lastLynched := some s, isFinalVoting := false }).users i =
      match getUser (setUser (resetIsAwaiting (markReady st user) room).users
          { u with isAlive := false }) i with
      | some w =>
        if room.userIds.contains w.id then some { w with voteCount := 0 } else some w
      | none => none := by
    intro i
    exact getUser_resetVoteCount
      { rooms := setRoom st.rooms { room with lastLynched := some s, isFinalVoting := false },
        users := setUser (resetIsAwaiting (markReady st user) room).users
          { u with isAlive := false } }
      { room with lastLynched := some s, isFinalVoting := false }
      { room with lastLynched := some s, isFinalVoting := false }
      i hst4room hnd4
  refine ⟨?_, ?_, ?_⟩
  · rw [hchar s, getUser_setUser, if_pos (show ({ u with isAlive := false } : User).id = s from hus)]
    show (if room.userIds.contains u.id = true then _ else _) = _
    rw [hus, if_pos hcs]
  · show getRoom (setRoom (setRoom st.rooms _) _) roomId = _
    rw [getRoom_setRoom, if_pos (show ({ room with lastLynched := some s, isFinalVoting := false, phase := PHASE.VotingResult } : Room).id = roomId from hrid)]
  · intro i u2 hi hg
    rw [hchar i] at hg
    cases hw : getUser (setUser (resetIsAwaiting (markReady st user) room).users
        { u with isAlive := false }) i with
    | none =>
      rw [hw] at hg
      cases hg
    | some w =>
      rw [hw] at hg
      have hwid : w.id = i := getUser_eq_some_id hw
      have hg2 : (if room.userIds.contains w.id = true
          then some { w with voteCount := 0 } else some w) = some u2 := hg
      rw [hwid, if_pos hi] at hg2
      cases hg2
      rfl

/-- Witness for claim C3: in the concrete two-member room, member b's ready
signal completes the barrier, member a uniquely leads the vote and is
lynched, votes reset, and the phase moves to VotingResult. -/
theorem claim_C3_awaitVoting_lynch_witness :
    ((exStateLynch.users.map User.id).Nodup ∧
      getRoom exStateLynch.rooms "r" = some exRoom ∧
      getUser exStateLynch.users "b" = some exUserB ∧
      checkAwaitStatus (markReady exStateLynch exUserB) exRoom = true ∧
      getSuspects (resetIsAwaiting (markReady exStateLynch exUserB) exRoom) exRoom = ["a"] ∧
      getUser (resetIsAwaiting (markReady exStateLynch exUserB) exRoom).users "a" =
        some { exUserA with isAwaiting := false }) ∧
    (getUser (awaitVotingHandler exStateLynch "r" "b").1.users "a" =
        some { exUserA with isAwaiting := false, isAlive := false, voteCount := 0 } ∧
      getRoom (awaitVotingHandler exStateLynch "r" "b").1.rooms "r" =
        some { exRoom with lastLynched := some "a", isFinalVoting := false, phase := PHASE.VotingResult } ∧
      (∀ i u2, exRoom.userIds.contains i = true →
        getUser (awaitVotingHandler exStateLynch "r" "b").1.users i = some u2 →
        u2.voteCount = 0)) :=
  ⟨⟨by decide, by decide, by decide, by decide, by decide, by decide⟩,
    claim_C3_awaitVoting_lynch exStateLynch "r" "b" exRoom exUserB "a"
      { exUserA with isAwaiting := false }
      (by decide) (by decide) (by decide) (by decide) (by decide) (by decide)⟩

/-- Claim C10: whenever the Voting-phase barrier completes with exactly one
vote leader whose User record is present, the room's isFinalVoting flag is
false afterwards, regardless of its prior value. -/
theorem claim_C10_lynch_clears_finalVoting (st : ServerState) (roomId userId : String)
    (room : Room) (user : User) (s : String) (u : User)
    (hroom : getRoom st.rooms roomId = some room)
    (huser : getUser st.users userId = some user)
    (hbar : checkAwaitStatus (markReady st user) room = true)
    (hsusp : getSuspects (resetIsAwaiting (markReady st user) room) room = [s])
    (hu : getUser (resetIsAwaiting (markReady st user) room).users s = some u) :
    (getRoom (awaitVotingHandler st roomId userId).1.rooms roomId).map Room.isFinalVoting =
      some false := by
  have hrid : room.id = roomId := getRoom_eq_some_id hroom
  rw [awaitVoting_lynch_state st roomId userId room user s u hroom huser hbar hsusp hu]
  show (getRoom (setRoom (setRoom st.rooms _) _) roomId).map Room.isFinalVoting = _
  rw [getRoom_setRoom, if_pos (show ({ room with lastLynched := some s, isFinalVoting := false, phase := PHASE.VotingResult } : Room).id = roomId from hrid)]
  rfl

/-- Witness for claim C10: the same decisive lynch as for C3, but run in a room
already in final-voting mode; the flag ends up false. -/
theorem claim_C10_lynch_clears_finalVoting_witness :
    ((getRoom exStateLynchFV.rooms "r" = some { exRoom with isFinalVoting := true } ∧
      getUser exStateLynchFV.users "b" = some exUserB ∧
      checkAwaitStatus (markReady exStateLynchFV exUserB) { exRoom with isFinalVoting := true } = true ∧
      getSuspects (resetIsAwaiting (markReady exStateLynchFV exUserB) { exRoom with isFinalVoting := true }) { exRoom with isFinalVoting := true } = ["a"] ∧
      getUser (resetIsAwaiting (markReady exStateLynchFV exUserB) { exRoom with isFinalVoting := true }).users "a" =
        some { exUserA with isAwaiting := false }) ∧
    (getRoom (awaitVotingHandler exStateLynchFV "r" "b").1.rooms "r").map Room.isFinalVoting =
      some false) :=
  ⟨⟨by decide, by decide, by decide, by decide, by decide⟩,
    claim_C10_lynch_clears_finalVoting exStateLynchFV "r" "b"
      { exRoom with isFinalVoting := true } exUserB "a" { exUserA with isAwaiting := false }
      (by decide) (by decide) (by decide) (by decide) (by decide)⟩

/-- Counterexample to claim C2 as stated: in the concrete first-tie scenario
the handler leaves the room in phase VotingResult, not Voting (all the other
claimed effects do hold there). -/
theorem claim_C2_counterexample :
    (exRoom.isFinalVoting = false ∧
      getSuspects (resetIsAwaiting (markReady exStateTie { exUserB with voteCount := 1 }) exRoom)
        exRoom = ["a", "b"]) ∧
    (getRoom (awaitVotingHandler exStateTie "r" "b").1.rooms "r").map Room.phase =
      some PHASE.VotingResult ∧
    (getRoom (awaitVotingHandler exStateTie "r" "b").1.rooms "r").map Room.phase ≠
      some PHASE.Voting := by
  decide

/-- Claim C2 (amended): when the Voting-phase barrier completes with more than
one vote leader and the room is not already in final-voting mode, the handler
sets isFinalVoting to true, resets every member's vote count to zero, and
lynches no one; the room's phase becomes VotingResult (not Voting — the
Voting phase is replayed only after the subsequent VotingResult and
Discussion steps). -/
theorem claim_C2_awaitVoting_first_tie (st : ServerState) (roomId userId : String)
    (room : Room) (user : User) (s1 s2 : String) (rest : List String)
    (hnd : (st.users.map User.id).Nodup)
    (hroom : getRoom st.rooms roomId = some room)
    (huser : getUser st.users userId = some user)
    (hbar : checkAwaitStatus (markReady st user) room = true)
    (hsusp : getSuspects (resetIsAwaiting (markReady st user) room) room = s1 :: s2 :: rest)
    (hfv : room.isFinalVoting = false) :
    getRoom (awaitVotingHandler st roomId userId).1.rooms roomId =
        some { room with isFinalVoting := true, phase := PHASE.VotingResult } ∧
    (∀ i u2, room.userIds.contains i = true →
      getUser (awaitVotingHandler st roomId userId).1.users i = some u2 →
      u2.voteCount = 0) ∧
    (∀ i, (getUser (awaitVotingHandler st roomId userId).1.users i).map User.isAlive
      = (getUser st.users i).map User.isAlive) := by
  have hrid : room.id = roomId := getRoom_eq_some_id hroom
  rw [awaitVoting_tie_state st roomId userId room user s1 s2 rest hroom huser hbar hsusp hfv]
  have hnd2 : ((resetIsAwaiting (markReady st user) room).users.map User.id).Nodup :=
    nodup_resetIsAwaiting (markReady st user) room (nodup_markReady st user hnd)
  have hst3room : getRoom (setRoom st.rooms { room with isFinalVoting := true })
      ({ room with isFinalVoting := true } : Room).id =
      some { room with isFinalVoting := true } := by
    rw [getRoom_setRoom, if_pos rfl]
  have hchar : ∀ i, getUser (resetVoteCount
      { rooms := setRoom st.rooms { room with isFinalVoting := true },
        users := (resetIsAwaiting (markReady st user) room).users }
      { room with isFinalVoting := true }).users i =
      match getUser (resetIsAwaiting (markReady st user) room).users i with
      | some w =>
        if room.userIds.contains w.id then some { w with voteCount := 0 } else some w
      | none => none := by
    intro i
    exact getUser_resetVoteCount
      { rooms := setRoom st.rooms { room with isFinalVoting := true },
        users := (resetIsAwaiting (markReady st user) room).users }
      { room with isFinalVoting := true }
      { room with isFinalVoting := true }
      i hst3room hnd2
  have hst2rooms : getRoom (markReady st user).rooms room.id = some room := by
    rw [markReady_rooms, hrid]
    exact hroom
  refine ⟨?_, ?_, ?_⟩
  · show getRoom (setRoom (setRoom st.rooms _) _) roomId = _
    rw [getRoom_setRoom, if_pos (show ({ room with isFinalVoting := true, phase := PHASE.VotingResult } : Room).id = roomId from hrid)]
  · intro i u2 hi hg
    rw [hchar i] at hg
    cases hw : getUser (resetIsAwaiting (markReady st user) room).users i with
    | none =>
      rw [hw] at hg
      cases hg
    | some w =>
      rw [hw] at hg
      have hwid : w.id = i := getUser_eq_some_id hw
      have hg2 : (if room.userIds.contains w.id = true
          then some { w with voteCount := 0 } else some w) = some u2 := hg
      rw [hwid, if_pos hi] at hg2
      cases hg2
      rfl
  · intro i
    rw [hchar i]
    have hpres : (getUser (resetIsAwaiting (markReady st user) room).users i).map User.isAlive
        = (getUser st.users i).map User.isAlive := by
      rw [isAlive_resetIsAwaiting (markReady st user) room room i hst2rooms
        (nodup_markReady st user hnd)]
      exact isAlive_markReady st userId user i huser
    cases hw : getUser (resetIsAwaiting (markReady st user) room).users i with
    | none =>
      rw [hw] at hpres
      exact hpres
    | some w =>
      rw [hw] at hpres
      show (Option.map User.isAlive (if room.userIds.contains w.id = true
        then some { w with voteCount := 0 } else some w)) = _
      by_cases hc : room.userIds.contains w.id = true
      · rw [if_pos hc]
        rw [← hpres]
        rfl
      · rw [if_neg hc]
        exact hpres

/-- Witness for the amended claim C2 at the concrete tied state: members a and
b tie at one vote each, final voting turns on, votes reset, nobody dies, and
the phase becomes VotingResult. -/
theorem claim_C2_awaitVoting_first_tie_witness :
    ((exStateTie.users.map User.id).Nodup ∧
      getRoom exStateTie.rooms "r" = some exRoom ∧
      getUser exStateTie.users "b" = some { exUserB with voteCount := 1 } ∧
      checkAwaitStatus (markReady exStateTie { exUserB with voteCount := 1 }) exRoom = true ∧
      getSuspects (resetIsAwaiting (markReady exStateTie { exUserB with voteCount := 1 }) exRoom)
        exRoom = "a" :: "b" :: [] ∧
      exRoom.isFinalVoting = false) ∧
    (getRoom (awaitVotingHandler exStateTie "r" "b").1.rooms "r" =
        some { exRoom with isFinalVoting := true, phase := PHASE.VotingResult } ∧
      (∀ i u2, exRoom.userIds.contains i = true →
        getUser (awaitVotingHandler exStateTie "r" "b").1.users i = some u2 →
        u2.voteCount = 0) ∧
      (∀ i, (getUser (awaitVotingHandler exStateTie "r" "b").1.users i).map User.isAlive
        = (getUser exStateTie.users i).map User.isAlive)) :=
  ⟨⟨by decide, by decide, by decide, by decide, by decide, by decide⟩,
    claim_C2_awaitVoting_first_tie exStateTie "r" "b" exRoom
      { exUserB with voteCount := 1 } "a" "b" []
      (by decide) (by decide) (by decide) (by decide) (by decide) (by decide)⟩

/-- Claim C4: when the Night-phase barrier completes with exactly one vote
leader whose id equals the room's protected lastHunted id, the attack fails:
the target stays alive and the room's lastMurdered stays none, regardless of
the vote counts. -/
theorem claim_C4_awaitNight_protected (st : ServerState) (roomId userId : String)
    (room : Room) (user : User) (s : String) (u : User)
    (hnd : (st.users.map User.id).Nodup)
    (hroom : getRoom st.rooms roomId = some room)
    (huser : getUser st.users userId = some user)
    (hbar : checkAwaitStatus (markReady st user) room = true)
    (hsusp : getSuspects (resetIsAwaiting (markReady st user) room) room = [s])
    (hu : getUser (resetIsAwaiting (markReady st user) room).users s = some u)
    (hprot : room.lastHunted = some u.id)
    (halive : u.isAlive = true)
    (hmur : room.lastMurdered = none) :
    (getUser (awaitNightHandler st roomId userId).1.users s).map User.isAlive = some true ∧
    (getRoom (awaitNightHandler st roomId userId).1.rooms roomId).map Room.lastMurdered =
      some none := by
  have hrid : room.id = roomId := getRoom_eq_some_id hroom
  rw [awaitNight_protected_state st roomId userId room user s u hroom huser hbar hsusp hu hprot]
  have hnd2 : ((resetIsAwaiting (markReady st user) room).users.map User.id).Nodup :=
    nodup_resetIsAwaiting (markReady st user) room (nodup_markReady st user hnd)
  have hst2rooms : getRoom (resetIsAwaiting (markReady st user) room).rooms room.id =
      some room := by
    rw [resetIsAwaiting_rooms, markReady_rooms, hrid]
    exact hroom
  constructor
  · split
    · rw [hu]
      show some u.isAlive = some true
      rw [halive]
    · rw [isAlive_resetVoteCount (resetIsAwaiting (markReady st user) room) room room s
        hst2rooms hnd2, hu]
      show some u.isAlive = some true
      rw [halive]
  · split
    · show (getRoom st.rooms roomId).map Room.lastMurdered = some none
      rw [hroom]
      show some room.lastMurdered = some none
      rw [hmur]
    · show (getRoom (setRoom st.rooms _) roomId).map Room.lastMurdered = some none
      rw [getRoom_setRoom, if_pos (show ({ room with lastHunted := none, days := room.days + 1, phase := PHASE.Discussion } : Room).id = roomId from hrid)]
      show some room.lastMurdered = some none
      rw [hmur]

/-- Witness for claim C4 at the concrete night state: member a uniquely leads
the night vote with two votes but is protected by lastHunted, so a stays
alive and lastMurdered stays none. -/
theorem claim_C4_awaitNight_protected_witness :
    ((exStateNight.users.map User.id).Nodup ∧
      getRoom exStateNight.rooms "r" = some exRoomNight ∧
      getUser exStateNight.users "b" = some exUserB ∧
      checkAwaitStatus (markReady exStateNight exUserB) exRoomNight = true ∧
      getSuspects (resetIsAwaiting (markReady exStateNight exUserB) exRoomNight) exRoomNight =
        ["a"] ∧
      getUser (resetIsAwaiting (markReady exStateNight exUserB) exRoomNight).users "a" =
        some { exUserA with isAwaiting := false } ∧
      exRoomNight.lastHunted = some ({ exUserA with isAwaiting := false } : User).id ∧
      ({ exUserA with isAwaiting := false } : User).isAlive = true ∧
      exRoomNight.lastMurdered = none) ∧
    ((getUser (awaitNightHandler exStateNight "r" "b").1.users "a").map User.isAlive =
        some true ∧
      (getRoom (awaitNightHandler exStateNight "r" "b").1.rooms "r").map Room.lastMurdered =
        some none) :=
  ⟨⟨by decide, by decide, by decide, by decide, by decide, by decide, by decide,
    by decide, by decide⟩,
    claim_C4_awaitNight_protected exStateNight "r" "b" exRoomNight exUserB "a"
      { exUserA with isAwaiting := false }
      (by decide) (by decide) (by decide) (by decide) (by decide) (by decide)
      (by decide) (by decide) (by decide)⟩

/-- Counterexample to claim C8 as stated: the role-assignment handler on a
room that references the missing member user id "c" does not drop the event —
it still increments the room's day counter and produces a broadcast. -/
theorem claim_C8_counterexample :
    (getUser exStateOrphan.users "c" = none ∧ "c" ∈ exRoomOrphan.userIds) ∧
    (choiceHandler exRand exStateOrphan "r").2 ≠ [] ∧
    (getRoom (choiceHandler exRand exStateOrphan "r").1.rooms "r").map Room.days = some 2 ∧
    exRoomOrphan.days = 1 := by
  decide

/-- Claim C8 (amended): every inbound event whose referenced ROOM id is
absent from the store is dropped — all stored state unchanged, only a log,
and no broadcast — for each modelled handler (vote, murder, hunt, role
assignment, join, leave, the room query, and all five phase barriers), and
every event that looks up an absent USER id (the vote/attack/protection
target, the user query, and the ready-signal sender of each barrier) is
dropped likewise.  The single exception the code forces is the
role-assignment event whose room exists: a member id with a missing user
record does not drop it — the handler logs, skips that member, and still
increments the day counter and broadcasts. -/
theorem claim_C8_notFound_drop (st : ServerState) (roomId userId newId : String)
    (user0 : User) (rand : Nat → Nat) :
    (getRoom st.rooms roomId = none →
      voteHandler st roomId userId = (st, []) ∧
      murderHandler st roomId userId = (st, []) ∧
      huntHandler st roomId userId = (st, []) ∧
      choiceHandler rand st roomId = (st, []) ∧
      joinHandler newId st roomId user0 = (st, []) ∧
      leaveHandler st roomId user0 = (st, []) ∧
      getRoomHandler st roomId = (st, []) ∧
      awaitStartHandler st roomId userId = (st, []) ∧
      awaitDiscussionHandler st roomId userId = (st, []) ∧
      awaitVotingHandler st roomId userId = (st, []) ∧
      awaitVotingResultHandler st roomId userId = (st, []) ∧
      awaitNightHandler st roomId userId = (st, [])) ∧
    (getUser st.users userId = none →
      voteHandler st roomId userId = (st, []) ∧
      murderHandler st roomId userId = (st, []) ∧
      huntHandler st roomId userId = (st, []) ∧
      getUserHandler st userId = (st, []) ∧
      awaitStartHandler st roomId userId = (st, []) ∧
      awaitDiscussionHandler st roomId userId = (st, []) ∧
      awaitVotingHandler st roomId userId = (st, []) ∧
      awaitVotingResultHandler st roomId userId = (st, []) ∧
      awaitNightHandler st roomId userId = (st, [])) := by
  constructor
  · intro h
    refine ⟨?_, ?_, ?_, ?_, ?_, ?_, ?_, ?_, ?_, ?_, ?_, ?_⟩
    · simp [voteHandler, h]
    · simp [murderHandler, h]
    · simp [huntHandler, h]
    · simp [choiceHandler, h]
    · simp [joinHandler, h]
    · simp [leaveHandler, h]
    · simp [getRoomHandler, h]
    · simp [awaitStartHandler, h]
    · simp [awaitDiscussionHandler, h]
    · simp [awaitVotingHandler, h]
    · simp [awaitVotingResultHandler, h]
    · simp [awaitNightHandler, h]
  · intro h
    refine ⟨?_, ?_, ?_, ?_, ?_, ?_, ?_, ?_, ?_⟩
    · cases hr : getRoom st.rooms roomId <;> simp [voteHandler, hr, h]
    · cases hr : getRoom st.rooms roomId <;> simp [murderHandler, hr, h]
    · cases hr : getRoom st.rooms roomId <;> simp [huntHandler, hr, h]
    · simp [getUserHandler, h]
    · cases hr : getRoom st.rooms roomId <;> simp [awaitStartHandler, hr, h]
    · cases hr : getRoom st.rooms roomId <;> simp [awaitDiscussionHandler, hr, h]
    · cases hr : getRoom st.rooms roomId <;> simp [awaitVotingHandler, hr, h]
    · cases hr : getRoom st.rooms roomId <;> simp [awaitVotingResultHandler, hr, h]
    · cases hr : getRoom st.rooms roomId <;> simp [awaitNightHandler, hr, h]

/-- Witness for the amended claim C8: on the empty store, every modelled
handler drops the event with no state change and no broadcast, both for the
missing room id and for the missing user id. -/
theorem claim_C8_notFound_drop_witness :
    (getRoom exStateEmpty.rooms "r" = none ∧ getUser exStateEmpty.users "x" = none) ∧
    (voteHandler exStateEmpty "r" "x" = (exStateEmpty, []) ∧
      murderHandler exStateEmpty "r" "x" = (exStateEmpty, []) ∧
      huntHandler exStateEmpty "r" "x" = (exStateEmpty, []) ∧
      choiceHandler exRand exStateEmpty "r" = (exStateEmpty, []) ∧
      joinHandler "y" exStateEmpty "r" exUserB = (exStateEmpty, []) ∧
      leaveHandler exStateEmpty "r" exUserB = (exStateEmpty, []) ∧
      getRoomHandler exStateEmpty "r" = (exStateEmpty, []) ∧
      awaitStartHandler exStateEmpty "r" "x" = (exStateEmpty, []) ∧
      awaitDiscussionHandler exStateEmpty "r" "x" = (exStateEmpty, []) ∧
      awaitVotingHandler exStateEmpty "r" "x" = (exStateEmpty, []) ∧
      awaitVotingResultHandler exStateEmpty "r" "x" = (exStateEmpty, []) ∧
      awaitNightHandler exStateEmpty "r" "x" = (exStateEmpty, [])) ∧
    (voteHandler exStateEmpty "r" "x" = (exStateEmpty, []) ∧
      murderHandler exStateEmpty "r" "x" = (exStateEmpty, []) ∧
      huntHandler exStateEmpty "r" "x" = (exStateEmpty, []) ∧
      getUserHandler exStateEmpty "x" = (exStateEmpty, []) ∧
      awaitStartHandler exStateEmpty "r" "x" = (exStateEmpty, []) ∧
      awaitDiscussionHandler exStateEmpty "r" "x" = (exStateEmpty, []) ∧
      awaitVotingHandler exStateEmpty "r" "x" = (exStateEmpty, []) ∧
      awaitVotingResultHandler exStateEmpty "r" "x" = (exStateEmpty, []) ∧
      awaitNightHandler exStateEmpty "r" "x" = (exStateEmpty, [])) :=
  ⟨⟨by decide, by decide⟩,
    (claim_C8_notFound_drop exStateEmpty "r" "x" "y" exUserB exRand).1 (by decide),
    (claim_C8_notFound_drop exStateEmpty "r" "x" "y" exUserB exRand).2 (by decide)⟩

/-! ### Fisher-Yates shuffle lemmas -/

theorem count_set_balance {α : Type} [DecidableEq α] (l : List α) (i : Nat) (b x d : α)
    (h : i < l.length) :
    (l.set i b).count x + (if l.getD i d = x then 1 else 0)
      = l.count x + (if b = x then 1 else 0) := by
  induction l generalizing i with
  | nil => exact absurd h (Nat.not_lt_zero i)
  | cons a t ih =>
    cases i with
    | zero =>
      show (b :: t).count x + (if (a :: t).getD 0 d = x then 1 else 0)
        = (a :: t).count x + (if b = x then 1 else 0)
      rw [List.getD_cons_zero, List.count_cons, List.count_cons]
      simp only [beq_iff_eq]
      omega
    | succ n =>
      have hn : n < t.length := Nat.lt_of_succ_lt_succ h
      have ihn := ih n hn
      show (a :: t.set n b).count x + (if (a :: t).getD (n + 1) d = x then 1 else 0)
        = (a :: t).count x + (if b = x then 1 else 0)
      rw [List.getD_cons_succ, List.count_cons, List.count_cons]
      simp only [beq_iff_eq] at ihn ⊢
      omega

theorem getD_set_bound {α : Type} [DecidableEq α] (l : List α) (i j : Nat) (b d : α)
    (hj : j < l.length) :
    (l.set i b).getD j d = if i = j then b else l.getD j d := by
  rw [List.getD_eq_getElem _ _ (show j < (l.set i b).length by rw [List.length_set]; exact hj)]
  rw [List.getElem_set]
  by_cases hij : i = j
  · rw [if_pos hij, if_pos hij]
  · rw [if_neg hij, if_neg hij, List.getD_eq_getElem _ _ hj]

theorem swapL_length (l : List ROLE) (i j : Nat) : (swapL l i j).length = l.length := by
  simp [swapL]

theorem swapL_count (l : List ROLE) (i j : Nat) (x : ROLE)
    (hi : i < l.length) (hj : j < l.length) :
    (swapL l i j).count x = l.count x := by
  unfold swapL
  have hj2 : j < (l.set i (l.getD j ROLE.Villager)).length := by
    rw [List.length_set]
    exact hj
  have e1 := count_set_balance (l.set i (l.getD j ROLE.Villager)) j
    (l.getD i ROLE.Villager) x ROLE.Villager hj2
  have e2 := count_set_balance l i (l.getD j ROLE.Villager) x ROLE.Villager hi
  have hAj : (l.set i (l.getD j ROLE.Villager)).getD j ROLE.Villager
      = l.getD j ROLE.Villager := by
    rw [getD_set_bound _ _ _ _ _ hj]
    by_cases hij : i = j
    · rw [if_pos hij]
    · rw [if_neg hij]
  rw [hAj] at e1
  have e3 := e1.trans e2
  omega

theorem swapL_perm (l : List ROLE) (i j : Nat) (hi : i < l.length) (hj : j < l.length) :
    List.Perm (swapL l i j) l := by
  rw [List.perm_iff_count]
  intro x
  exact swapL_count l i j x hi hj

theorem fyAux_length (rand : Nat → Nat) (n : Nat) (l : List ROLE) :
    (fyAux rand n l).length = l.length := by
  induction n generalizing l with
  | zero => rfl
  | succ n ih =>
    simp only [fyAux]
    rw [ih, swapL_length]

theorem fyAux_perm (rand : Nat → Nat) (hrand : ∀ k, rand k ≤ k) (n : Nat) (l : List ROLE)
    (hn : n < l.length) :
    List.Perm (fyAux rand n l) l := by
  induction n generalizing l with
  | zero => exact List.Perm.refl l
  | succ n ih =>
    simp only [fyAux]
    have hsw : List.Perm (swapL l (n + 1) (rand (n + 1))) l :=
      swapL_perm l (n + 1) (rand (n + 1)) hn (Nat.lt_of_le_of_lt (hrand (n + 1)) hn)
    exact List.Perm.trans
      (ih (swapL l (n + 1) (rand (n + 1)))
        (by rw [swapL_length]; exact Nat.lt_of_succ_lt hn))
      hsw

theorem fisherYates_length (rand : Nat → Nat) (l : List ROLE) :
    (fisherYates rand l).length = l.length :=
  fyAux_length rand (l.length - 1) l

theorem fisherYates_perm (rand : Nat → Nat) (hrand : ∀ k, rand k ≤ k) (l : List ROLE) :
    List.Perm (fisherYates rand l) l := by
  unfold fisherYates
  cases l with
  | nil => exact List.Perm.refl _
  | cons a t => exact fyAux_perm rand hrand t.length (a :: t) (Nat.lt_succ_self t.length)

theorem buildChoices_length (r : Rule) : (buildChoices r).length = ruleSum r := by
  simp [buildChoices, ruleSum]
  omega

theorem buildChoices_count (r : Rule) :
    (buildChoices r).count ROLE.WereWolf = r.wereWolves ∧
    (buildChoices r).count ROLE.FortuneTeller = r.fortuneTellers ∧
    (buildChoices r).count ROLE.Medium = r.mediumns ∧
    (buildChoices r).count ROLE.Hunter = r.hunters ∧
    (buildChoices r).count ROLE.Maniac = r.maniacs ∧
    (buildChoices r).count ROLE.Villager = r.villagers := by
  refine ⟨?_, ?_, ?_, ?_, ?_, ?_⟩ <;>
    simp [buildChoices, List.count_append, List.count_replicate]

theorem assignRolesAux_not_mem (choices : List ROLE) (ids : List String) (k : Nat)
    (s : UserStore) (i : String) (h : ¬ i ∈ ids) :
    getUser (assignRolesAux choices ids k s) i = getUser s i := by
  induction ids generalizing k s with
  | nil => rfl
  | cons uid rest ih =>
    have hrest : ¬ i ∈ rest := fun hc => h (List.mem_cons_of_mem _ hc)
    have hne : uid ≠ i := fun hc => h (hc ▸ List.mem_cons_self _ _)
    show getUser (assignRolesAux choices rest (k + 1)
      (match getUser s uid with
        | some u => setUser s { u with role := choices.getD k u.role }
        | none => s)) i = getUser s i
    rw [ih _ _ hrest]
    cases hg : getUser s uid with
    | none => rfl
    | some u =>
      show getUser (setUser s { u with role := choices.getD k u.role }) i = getUser s i
      rw [getUser_setUser,
        if_neg (show ¬ ({ u with role := choices.getD k u.role } : User).id = i from
          fun hc => hne ((getUser_eq_some_id hg) ▸ hc))]

theorem assignRolesAux_spec (choices : List ROLE) (ids : List String) (k : Nat)
    (s : UserStore) (hnd : ids.Nodup)
    (hpres : ∀ id2 ∈ ids, (getUser s id2).isSome = true)
    (hlen : k + ids.length ≤ choices.length) :
    ids.map (fun i => (getUser (assignRolesAux choices ids k s) i).map User.role)
      = ((choices.drop k).take ids.length).map some := by
  induction ids generalizing k s with
  | nil => rfl
  | cons uid rest ih =>
    obtain ⟨hni, hnd2⟩ := List.nodup_cons.mp hnd
    have hk : k < choices.length := by
      have := hlen
      simp only [List.length_cons] at this
      omega
    obtain ⟨u, hg⟩ : ∃ u, getUser s uid = some u := by
      have h1 := hpres uid (List.mem_cons_self _ _)
      exact Option.isSome_iff_exists.mp h1
    have huid : u.id = uid := getUser_eq_some_id hg
    have hstep : assignRolesAux choices (uid :: rest) k s
        = assignRolesAux choices rest (k + 1)
          (setUser s { u with role := choices.getD k u.role }) := by
      show assignRolesAux choices rest (k + 1)
          (match getUser s uid with
            | some u2 => setUser s { u2 with role := choices.getD k u2.role }
            | none => s)
        = assignRolesAux choices rest (k + 1)
          (setUser s { u with role := choices.getD k u.role })
      rw [hg]
    have hhead : getUser (assignRolesAux choices (uid :: rest) k s) uid
        = some { u with role := choices.getD k u.role } := by
      rw [hstep, assignRolesAux_not_mem choices rest (k + 1) _ uid hni, getUser_setUser,
        if_pos (show ({ u with role := choices.getD k u.role } : User).id = uid from huid)]
    have htail := ih (k + 1) (setUser s { u with role := choices.getD k u.role }) hnd2
      (by
        intro id2 hid2
        rw [getUser_setUser,
          if_neg (show ¬ ({ u with role := choices.getD k u.role } : User).id = id2 from
            fun hc => hni (huid ▸ hc ▸ hid2))]
        exact hpres id2 (List.mem_cons_of_mem _ hid2))
      (by
        simp only [List.length_cons] at hlen
        omega)
    have hmaps : rest.map
        (fun i => (getUser (assignRolesAux choices (uid :: rest) k s) i).map User.role)
        = rest.map (fun i => (getUser (assignRolesAux choices rest (k + 1)
            (setUser s { u with role := choices.getD k u.role })) i).map User.role) := by
      rw [hstep]
    simp only [List.map_cons]
    rw [hhead, hmaps, htail, List.length_cons, List.drop_eq_getElem_cons hk,
      List.take_succ_cons, List.map_cons, List.getD_eq_getElem choices u.role hk]
    rfl

/-- Claim C7: for any room whose rule counts sum to the member-list length,
with all member records present and distinct member ids, the role-assignment
handler gives every member a role, the assigned roles over the members are
exactly the shuffled multiset of the rule (a permutation of the rule's role
multiset, hence each role appears exactly its configured count of times, for
every outcome of the random shuffle), and the day counter is incremented by
exactly one. -/
theorem claim_C7_choice (rand : Nat → Nat) (st : ServerState) (roomId : String)
    (room : Room)
    (hroom : getRoom st.rooms roomId = some room)
    (hrand : ∀ k, rand k ≤ k)
    (hsum : ruleSum room.rule = room.userIds.length)
    (hnd : room.userIds.Nodup)
    (hpres : ∀ id2 ∈ room.userIds, (getUser st.users id2).isSome = true) :
    room.userIds.map
        (fun i => (getUser (choiceHandler rand st roomId).1.users i).map User.role)
      = (fisherYates rand (buildChoices room.rule)).map some ∧
    List.Perm (fisherYates rand (buildChoices room.rule)) (buildChoices room.rule) ∧
    ((fisherYates rand (buildChoices room.rule)).count ROLE.WereWolf = room.rule.wereWolves ∧
      (fisherYates rand (buildChoices room.rule)).count ROLE.FortuneTeller = room.rule.fortuneTellers ∧
      (fisherYates rand (buildChoices room.rule)).count ROLE.Medium = room.rule.mediumns ∧
      (fisherYates rand (buildChoices room.rule)).count ROLE.Hunter = room.rule.hunters ∧
      (fisherYates rand (buildChoices room.rule)).count ROLE.Maniac = room.rule.maniacs ∧
      (fisherYates rand (buildChoices room.rule)).count ROLE.Villager = room.rule.villagers) ∧
    getRoom (choiceHandler rand st roomId).1.rooms roomId =
      some { room with days := room.days + 1 } := by
  have hperm := fisherYates_perm rand hrand (buildChoices room.rule)
  have hlen : (fisherYates rand (buildChoices room.rule)).length = room.userIds.length := by
    rw [fisherYates_length, buildChoices_length, hsum]
  have hcounts := buildChoices_count room.rule
  have hcnt : ∀ x : ROLE, (fisherYates rand (buildChoices room.rule)).count x
      = (buildChoices room.rule).count x := List.perm_iff_count.mp hperm
  refine ⟨?_, hperm, ?_, ?_⟩
  · simp only [choiceHandler, hroom]
    have hspec := assignRolesAux_spec (fisherYates rand (buildChoices room.rule))
      room.userIds 0 st.users hnd hpres (by rw [hlen]; omega)
    rw [hspec, List.drop_zero, ← hlen, List.take_length]
  · exact ⟨(hcnt ROLE.WereWolf).trans hcounts.1,
      (hcnt ROLE.FortuneTeller).trans hcounts.2.1,
      (hcnt ROLE.Medium).trans hcounts.2.2.1,
      (hcnt ROLE.Hunter).trans hcounts.2.2.2.1,
      (hcnt ROLE.Maniac).trans hcounts.2.2.2.2.1,
      (hcnt ROLE.Villager).trans hcounts.2.2.2.2.2⟩
  · simp only [choiceHandler, hroom]
    have hrid : room.id = roomId := getRoom_eq_some_id hroom
    show getRoom (setRoom st.rooms { room with days := room.days + 1 }) roomId = _
    rw [getRoom_setRoom,
      if_pos (show ({ room with days := room.days + 1 } : Room).id = roomId from hrid)]

/-- Witness for claim C7: in the concrete two-member room with a one-wolf
one-villager rule and the degenerate random source, both members receive a
role, the assigned roles are a permutation of the rule multiset, and the day
counter moves from 1 to 2. -/
theorem claim_C7_choice_witness :
    (getRoom exStateLynch.rooms "r" = some exRoom ∧
      (∀ k, exRand k ≤ k) ∧
      ruleSum exRoom.rule = exRoom.userIds.length ∧
      exRoom.userIds.Nodup ∧
      (∀ id2 ∈ exRoom.userIds, (getUser exStateLynch.users id2).isSome = true)) ∧
    (exRoom.userIds.map
        (fun i => (getUser (choiceHandler exRand exStateLynch "r").1.users i).map User.role)
      = (fisherYates exRand (buildChoices exRoom.rule)).map some ∧
      List.Perm (fisherYates exRand (buildChoices exRoom.rule)) (buildChoices exRoom.rule) ∧
      ((fisherYates exRand (buildChoices exRoom.rule)).count ROLE.WereWolf = exRoom.rule.wereWolves ∧
        (fisherYates exRand (buildChoices exRoom.rule)).count ROLE.FortuneTeller = exRoom.rule.fortuneTellers ∧
        (fisherYates exRand (buildChoices exRoom.rule)).count ROLE.Medium = exRoom.rule.mediumns ∧
        (fisherYates exRand (buildChoices exRoom.rule)).count ROLE.Hunter = exRoom.rule.hunters ∧
        (fisherYates exRand (buildChoices exRoom.rule)).count ROLE.Maniac = exRoom.rule.maniacs ∧
        (fisherYates exRand (buildChoices exRoom.rule)).count ROLE.Villager = exRoom.rule.villagers) ∧
      getRoom (choiceHandler exRand exStateLynch "r").1.rooms "r" =
        some { exRoom with days := exRoom.days + 1 }) :=
  ⟨⟨by decide, fun k => Nat.zero_le k, by decide, by decide, by decide⟩,
    claim_C7_choice exRand exStateLynch "r" exRoom (by decide) (fun k => Nat.zero_le k)
      (by decide) (by decide) (by decide)⟩

end OpenJinro
